import Mathlib

/-!
Verification of the mitogen connection multiplexer against its
specification.  Definitions are shallow embeddings of the Python source
(mitogen/core.py, mitogen/master.py, mitogen/ssh.py); theorems settle the
spec's claims about framing, routing, dispatch, serialization guards,
receiver semantics, SSH bootstrap scanning, `__main__` neutralization and
`Select.add`.
-/

namespace Mitogen

/-! ## Wire framing (mitogen/core.py, class Stream)

`Stream._send` packs a header with `struct.pack('>hhLLL', ...)`: big-endian
signed 16-bit `dst_id` and `src_id` followed by unsigned 32-bit `handle`,
`reply_to or 0` and `len(data)`, then the payload bytes.
`Stream._receive_one` unpacks the same format (`HEADER_FMT = '>hhLLL'`,
`HEADER_LEN = 16`).  Bytes are modelled as natural numbers below 256. -/

/-- A message as held by `mitogen.core.Message`: header fields plus opaque
payload bytes.  `dst_id`/`src_id` are `Int` because the wire format `>h` is
signed 16-bit; `reply_to` is the packed value (`msg.reply_to or 0`, so 0
means none). -/
structure Message where
  dst_id : Int
  src_id : Int
  handle : Nat
  reply_to : Nat
  data : List Nat
deriving Repr, DecidableEq

/-- Big-endian 4-byte encoding of an unsigned 32-bit value (`struct.pack '>L'`). -/
def u32be (n : Nat) : List Nat :=
  [n / 16777216 % 256, n / 65536 % 256, n / 256 % 256, n % 256]

/-- The 16-bit two's-complement representative of a signed value
(`struct.pack '>h'` accepts -32768..32767 and emits this bit pattern). -/
def i16repr (z : Int) : Nat := (z % 65536).toNat

/-- Big-endian 2-byte encoding of a signed 16-bit value (`struct.pack '>h'`). -/
def i16be (z : Int) : List Nat := [i16repr z / 256, i16repr z % 256]

/-- Big-endian value of a byte string (how `struct.unpack` reads a field). -/
def beVal (bs : List Nat) : Nat := bs.foldl (fun a b => 256 * a + b) 0

/-- Big-endian signed 16-bit decoding (`struct.unpack '>h'`). -/
def decodeI16 (bs : List Nat) : Int :=
  if beVal bs < 32768 then (beVal bs : Int) else (beVal bs : Int) - 65536

/-- `Stream.HEADER_LEN = struct.calcsize('>hhLLL') = 16`. -/
def HEADER_LEN : Nat := 16

/-- `Stream._send`: the encoded frame `struct.pack('>hhLLL', dst_id, src_id,
handle, reply_to or 0, len(data)) + data`. -/
def encode (m : Message) : List Nat :=
  i16be m.dst_id ++ i16be m.src_id ++ u32be m.handle ++ u32be m.reply_to ++
    u32be m.data.length ++ m.data

/-- Modelled from the spec's words for comparison with the source encoder:
"Big-endian header: u32 dst_id, u32 src_id, u32 handle, u32 reply_to,
u32 length; then length bytes of payload". -/
def encodeSpecU32 (m : Message) : List Nat :=
  u32be m.dst_id.toNat ++ u32be m.src_id.toNat ++ u32be m.handle ++
    u32be m.reply_to ++ u32be m.data.length ++ m.data

/-- Ranges accepted by `struct.pack('>hhLLL', ...)`: `>h` fields must fit in
signed 16 bits, `>L` fields in unsigned 32 bits. -/
def WFMessage (m : Message) : Prop :=
  -32768 ≤ m.dst_id ∧ m.dst_id < 32768 ∧ -32768 ≤ m.src_id ∧ m.src_id < 32768 ∧
    m.handle < 4294967296 ∧ m.reply_to < 4294967296 ∧ m.data.length < 4294967296

instance (m : Message) : Decidable (WFMessage m) := by
  unfold WFMessage; infer_instance

/-- The `msg_len` field `struct.unpack` reads from a buffered header: the
big-endian u32 at offset 12. -/
def msgLenOf (buf : List Nat) : Nat := beVal ((buf.drop 12).take 4)

/-- `Stream._receive_one`: with fewer than `HEADER_LEN` buffered bytes, or
fewer than the header's `msg_len` payload bytes after the header, nothing
happens; otherwise one message is cut off the front of the buffer and the
remainder is kept. -/
def receiveOne (buf : List Nat) : Option (Message × List Nat) :=
  if buf.length < HEADER_LEN then none
  else if buf.length - HEADER_LEN < msgLenOf buf then none
  else some ({ dst_id := decodeI16 (buf.take 2),
               src_id := decodeI16 ((buf.drop 2).take 2),
               handle := beVal ((buf.drop 4).take 4),
               reply_to := beVal ((buf.drop 8).take 4),
               data := (buf.drop HEADER_LEN).take (msgLenOf buf) },
             buf.drop (HEADER_LEN + msgLenOf buf))

/-- The `while self._receive_one(broker): pass` loop of `Stream.on_receive`:
repeatedly cut complete frames off the front of the input buffer, collecting
the parsed messages in dispatch order, until no complete frame remains. -/
def parseAll (buf : List Nat) : List Message × List Nat :=
  match h : receiveOne buf with
  | none => ([], buf)
  | some (m, rest) =>
    have hlt : rest.length < buf.length := by
      unfold receiveOne at h
      split at h
      · exact absurd h (by simp)
      · split at h
        · exact absurd h (by simp)
        · rename_i h1 h2
          injection h with h3
          have h4 : rest = buf.drop (HEADER_LEN + msgLenOf buf) :=
            (congrArg Prod.snd h3).symm
          subst h4
          rw [List.length_drop]
          unfold HEADER_LEN at h1 ⊢
          omega
    let p := parseAll rest
    (m :: p.1, p.2)
termination_by buf.length

/-- `Stream.on_receive` over a sequence of reads: each chunk read from the
receive side is appended to `_input_buf` and the `_receive_one` loop drained;
an empty read means the peer disconnected, and the stream processes no more
chunks.  Returns the final input buffer and all messages handed to
`Router._async_route`, in order. -/
def feed (st : List Nat) : List (List Nat) → List Nat × List Message
  | [] => (st, [])
  | c :: cs =>
    if c.isEmpty then ((parseAll (st ++ c)).2, (parseAll (st ++ c)).1)
    else
      ((feed (parseAll (st ++ c)).2 cs).1,
        (parseAll (st ++ c)).1 ++ (feed (parseAll (st ++ c)).2 cs).2)

/-- Concatenation of the encoded frames of a message sequence. -/
def encodeAll (msgs : List Message) : List Nat := (msgs.map encode).flatten

/-! ## Router (mitogen/core.py, class Router)

`Router._stream_by_id` maps context ids to streams (streams are modelled by
numeric identifiers), `mitogen.context_id` is the local id and
`mitogen.parent_id` is `None` on the master (`mitogen/__init__.py`). -/

/-- The router state consulted by `Router._async_route`. -/
structure RouterState where
  stream_by_id : List (Int × Nat)
  context_id : Int
  parent_id : Option Int
deriving Repr, DecidableEq

/-- Python `dict.get(k)`: the value bound to `k`, if any. -/
def dictGet (d : List (Int × Nat)) (k : Int) : Option Nat :=
  match d.find? (fun p => p.1 == k) with
  | some p => some p.2
  | none => none

/-- `dict.get(k)` where `k` may be `None` (`mitogen.parent_id` on the master):
no key equals `None`, so the lookup misses. -/
def dictGetOpt (d : List (Int × Nat)) (k : Option Int) : Option Nat :=
  match k with
  | none => none
  | some k => dictGet d k

/-- `self._stream_by_id.get(msg.src_id, parent_stream)` where `parent_stream
= self._stream_by_id.get(mitogen.parent_id)`. -/
def expectedStream (r : RouterState) (src : Int) : Option Nat :=
  match dictGet r.stream_by_id src with
  | some s => some s
  | none => dictGetOpt r.stream_by_id r.parent_id

/-- What `_async_route` does with the message: deliver locally via
`self._invoke`, send on a stream, or drop it. -/
inductive RouteAction where
  | invoke
  | forward (streamId : Nat)
  | drop
deriving Repr, DecidableEq

/-- Observable outcome of one `Router._async_route` call. -/
structure RouteResult where
  badSourceLogged : Bool
  noRouteLogged : Bool
  action : RouteAction
  streamDisconnected : Bool
deriving Repr, DecidableEq

/-- `Router._async_route(msg, stream)`: when `stream` is given, compare it
with the expected stream and log a "bad source" error on mismatch (the code
then continues); deliver locally when `dst_id` is the local id; otherwise
forward to the stream bound to `dst_id`, falling back to the parent stream,
and log-and-drop when neither exists.  The function never disconnects the
stream. -/
def asyncRoute (r : RouterState) (msg : Message) (stream : Option Nat) :
    RouteResult :=
  let bad : Bool :=
    match stream with
    | none => false
    | some s => if some s = expectedStream r msg.src_id then false else true
  if msg.dst_id = r.context_id then
    { badSourceLogged := bad, noRouteLogged := false,
      action := RouteAction.invoke, streamDisconnected := false }
  else
    match dictGet r.stream_by_id msg.dst_id with
    | some s =>
      { badSourceLogged := bad, noRouteLogged := false,
        action := RouteAction.forward s, streamDisconnected := false }
    | none =>
      match dictGetOpt r.stream_by_id r.parent_id with
      | some s =>
        { badSourceLogged := bad, noRouteLogged := false,
          action := RouteAction.forward s, streamDisconnected := false }
      | none =>
        { badSourceLogged := bad, noRouteLogged := true,
          action := RouteAction.drop, streamDisconnected := false }

/-! ## Handler table and `Router._invoke` (mitogen/core.py)

`Router._handle_map` maps a handle to `(persist, fn)`.  Handler functions
are opaque to the router, so they are modelled by numeric identifiers, and
whether a handler raises is an external parameter. -/

/-- One `_handle_map` entry: `(persist, fn)`. -/
structure HandlerEntry where
  persist : Bool
  fn : Nat
deriving Repr, DecidableEq

/-- Python `dict[k]` lookup on the handler table. -/
def hmGet (hm : List (Nat × HandlerEntry)) (k : Nat) : Option HandlerEntry :=
  match hm.find? (fun p => p.1 == k) with
  | some p => some p.2
  | none => none

/-- `del self._handle_map[handle]`. -/
def hmDel (hm : List (Nat × HandlerEntry)) (k : Nat) :
    List (Nat × HandlerEntry) :=
  hm.filter (fun p => p.1 != k)

/-- Observable outcome of one `Router._invoke` call: the handler table in
effect when (and after) the handler function runs, which function was
invoked, and what was logged.  `_invoke` always returns normally. -/
structure InvokeResult where
  handle_map : List (Nat × HandlerEntry)
  invoked : Option Nat
  invalidHandleLogged : Bool
  exceptionLogged : Bool
deriving Repr, DecidableEq

/-- `Router._invoke(msg)`: unknown handle is logged and dropped; otherwise
the entry is removed first when not persistent, then `fn(msg)` runs, and an
exception from it is logged (`LOG.exception`) but not re-raised. -/
def invoke (hm : List (Nat × HandlerEntry)) (raises : Nat → Bool)
    (msg : Message) : InvokeResult :=
  match hmGet hm msg.handle with
  | none =>
    { handle_map := hm, invoked := none,
      invalidHandleLogged := true, exceptionLogged := false }
  | some e =>
    { handle_map := if e.persist then hm else hmDel hm msg.handle,
      invoked := some e.fn,
      invalidHandleLogged := false, exceptionLogged := raises e.fn }

/-! ## Message.unpickle (mitogen/core.py)

`Message._find_global` whitelists exactly three constructors of the module
`mitogen.core`; `Message.unpickle` runs `cPickle.Unpickler.load` with that
`find_global` hook and converts `TypeError`/`ValueError` into
`StreamError('invalid message: ...')`.  The cPickle machine itself is not
part of this repository: its `load` is modelled abstractly as resolving each
GLOBAL reference in the payload through `find_global` (a raise there
propagates) and otherwise either producing a value or failing with an
exception of some class (Python documents `UnpicklingError`, `EOFError`
etc. for corrupt or truncated pickles, e.g. `cPickle.loads('')` raises
`EOFError`). -/

/-- Values produced by decoding, closed under the whitelisted domain types. -/
inductive PVal where
  | dead
  | callError (s : String)
  | ctx (id : Int) (name : String)
  | other (n : Nat)
deriving Repr, DecidableEq

/-- Python exception classes relevant to `Message.unpickle`. -/
inductive PyErr where
  | streamError (s : String)
  | typeError
  | valueError
  | unpicklingError
  | eofError
deriving Repr, DecidableEq

/-- The three functions `Message._find_global` may return. -/
inductive GlobalFn where
  | unpickleCallError
  | unpickleDead
  | unpickleContext
deriving Repr, DecidableEq

/-- `Message._find_global(module, func)`: return the whitelisted constructor
or raise `StreamError('cannot unpickle %r/%r')`. -/
def findGlobal (module func : String) : Except PyErr GlobalFn :=
  if module = "mitogen.core" then
    if func = "_unpickle_call_error" then Except.ok GlobalFn.unpickleCallError
    else if func = "_unpickle_dead" then Except.ok GlobalFn.unpickleDead
    else if func = "_unpickle_context" then Except.ok GlobalFn.unpickleContext
    else Except.error (PyErr.streamError "cannot unpickle")
  else Except.error (PyErr.streamError "cannot unpickle")

/-- Whether a `(module, func)` pair is on the `_find_global` whitelist. -/
def isWhitelisted (mf : String × String) : Bool :=
  match findGlobal mf.1 mf.2 with
  | Except.ok _ => true
  | Except.error _ => false

/-- How the foreign unpickling machine finishes once all GLOBAL references
have resolved: a value, or a failure of the given exception class. -/
inductive LoadOutcome where
  | value (v : PVal)
  | err (e : PyErr)
deriving Repr, DecidableEq

/-- `unpickler.load()` with `unpickler.find_global = msg._find_global`:
resolve each GLOBAL reference in payload order, propagating the first
exception `find_global` raises; otherwise finish with the payload's own
outcome. -/
def unpicklerLoad : List (String × String) → LoadOutcome → Except PyErr PVal
  | [], LoadOutcome.value v => Except.ok v
  | [], LoadOutcome.err e => Except.error e
  | mf :: rest, oc =>
    match findGlobal mf.1 mf.2 with
    | Except.error e => Except.error e
    | Except.ok _ => unpicklerLoad rest oc

/-- Whether an exception is a `StreamError`. -/
def isStreamErr : PyErr → Bool
  | PyErr.streamError _ => true
  | _ => false

/-- `Message.unpickle`: run the unpickler; `except (TypeError, ValueError)`
is re-raised as `StreamError('invalid message: ...')`; any other exception
(including the `StreamError` from `_find_global`) propagates unchanged. -/
def unpickle (refs : List (String × String)) (outcome : LoadOutcome) :
    Except PyErr PVal :=
  match unpicklerLoad refs outcome with
  | Except.ok v => Except.ok v
  | Except.error PyErr.typeError =>
    Except.error (PyErr.streamError "invalid message")
  | Except.error PyErr.valueError =>
    Except.error (PyErr.streamError "invalid message")
  | Except.error e => Except.error e

/-! ## Receiver.get (mitogen/core.py)

`Receiver._queue` holds either messages (enqueued by `_on_receive`) or the
`_DEAD` sentinel (enqueued by `Receiver.close`).  `_queue_interruptible_get`
polls `queue.get(block, 0.5)` until an item arrives or the deadline passes;
the poll outcomes within the deadline window are modelled as a list. -/

instance : DecidableEq (Except PyErr PVal)
  | Except.ok x, Except.ok y =>
    match decEq x y with
    | isTrue h => isTrue (h ▸ rfl)
    | isFalse h => isFalse (fun hh => h (Except.ok.inj hh))
  | Except.ok _, Except.error _ => isFalse (fun hh => Except.noConfusion hh)
  | Except.error _, Except.ok _ => isFalse (fun hh => Except.noConfusion hh)
  | Except.error x, Except.error y =>
    match decEq x y with
    | isTrue h => isTrue (h ▸ rfl)
    | isFalse h => isFalse (fun hh => h (Except.error.inj hh))

/-- One entry of `Receiver._queue`: the `_DEAD` sentinel put by `close()`,
or a message (identified by a tag) paired with what `msg.unpickle()` would
return for it. -/
inductive QItem where
  | deadSentinel
  | msg (tag : Nat) (decoded : Except PyErr PVal)
deriving Repr, DecidableEq

/-- `_queue_interruptible_get(queue, timeout, block=True)`: each element of
`polls` is the outcome of one bounded `queue.get` call inside the deadline
window (`none` = `Queue.Empty`); the first item wins, and `none` overall
means the deadline passed with no message. -/
def interruptibleGet : List (Option QItem) → Option QItem
  | [] => none
  | some it :: _ => some it
  | none :: rest => interruptibleGet rest

/-- What `Receiver.get` does: return `(msg, value)` or raise. -/
inductive GetOutcome where
  | ok (tag : Nat) (v : PVal)
  | channelLocal
  | channelRemote
  | callErr (s : String)
  | timeout
  | decodeErr (e : PyErr)
deriving Repr, DecidableEq

/-- `Receiver.get(timeout)`: `TimeoutError` when nothing arrives in time;
`ChannelError(local_msg)` for the queued `_DEAD` sentinel; decode the
message; `ChannelError(remote_msg)` when the decoded value equals `_DEAD`
and `raise_channelerror` is set (its class default is `True`); re-raise a
decoded `CallError`; otherwise return the message with the value. -/
def receiverGet (raise_channelerror : Bool) (polls : List (Option QItem)) :
    GetOutcome :=
  match interruptibleGet polls with
  | none => GetOutcome.timeout
  | some QItem.deadSentinel => GetOutcome.channelLocal
  | some (QItem.msg tag dec) =>
    match dec with
    | Except.error e => GetOutcome.decodeErr e
    | Except.ok v =>
      if v = PVal.dead ∧ raise_channelerror = true then GetOutcome.channelRemote
      else
        match v with
        | PVal.callError s => GetOutcome.callErr s
        | v => GetOutcome.ok tag v

/-! ## SSH bootstrap scanning (mitogen/ssh.py, Stream._connect_bootstrap)

Each chunk read from the child before the `EC0\n` sentinel is checked, in
this order: ends with `EC0\n`; contains `PERMDENIED_PROMPT = 'permission
denied'` in its lowercased form; contains `PASSWORD_PROMPT = 'password'` in
its lowercased form. -/

/-- Boolean "is a list-of-chars prelude of" check. -/
def pfxB : List Char → List Char → Bool
  | [], _ => true
  | _ :: _, [] => false
  | a :: as, b :: bs => a == b && pfxB as bs

/-- Python `str.endswith`, via reversal. -/
def sfxB (s buf : List Char) : Bool := pfxB s.reverse buf.reverse

/-- Python `needle in hay` substring test. -/
def subB (needle : List Char) : List Char → Bool
  | [] => pfxB needle []
  | c :: t => pfxB needle (c :: t) || subB needle t

/-- Python `str.lower()`. -/
def toLowerL (cs : List Char) : List Char := cs.map Char.toLower

/-- What `Stream._connect_bootstrap` does with one chunk. -/
inductive SshAction where
  | ec0Received
  | raisePasswordIncorrect
  | raiseAuthIncorrect
  | raisePasswordRequired
  | sendPassword (written : List Char)
  | keepReading
deriving Repr, DecidableEq

/-- One iteration of the `for buf in iter_read(...)` loop of
`mitogen.ssh.Stream._connect_bootstrap`, given the configured `password`
and the current `password_sent` flag. -/
def sshStepAction (password : Option (List Char)) (password_sent : Bool)
    (buf : List Char) : SshAction :=
  if sfxB "EC0\n".toList buf then SshAction.ec0Received
  else if subB "permission denied".toList (toLowerL buf) then
    (if password.isSome && password_sent then SshAction.raisePasswordIncorrect
     else SshAction.raiseAuthIncorrect)
  else if subB "password".toList (toLowerL buf) then
    (match password with
     | none => SshAction.raisePasswordRequired
     | some p => SshAction.sendPassword (p ++ ['\n']))
  else SshAction.keepReading

/-- The `password_sent` flag after processing one chunk: it becomes `True`
exactly when the password was written. -/
def sshStepSent (password : Option (List Char)) (password_sent : Bool)
    (buf : List Char) : Bool :=
  match sshStepAction password password_sent buf with
  | SshAction.sendPassword _ => true
  | _ => password_sent

/-! ## __main__ neutralization (mitogen/master.py, ModuleResponder)

`MAIN_RE = re.compile(r'^if\s+__name__\s*==\s*.__main__.\s*:', re.M)` and
`neutralize_main` truncates the source at `match.start()` of the first
(leftmost) match, which `re.M` anchors to a line start.  The pattern is a
plain concatenation of single-character classes and starred whitespace, so
it is embedded as a sequence of atoms with the standard
existential-split semantics of `*`. -/

/-- One regex atom: a single-character class, or the Kleene star of one. -/
inductive Pat where
  | one (p : Char → Bool)
  | star (p : Char → Bool)

/-- Python `\s`: `[ \t\n\r\f\v]`. -/
def wsB (c : Char) : Bool :=
  c == ' ' || c == '\t' || c == '\n' || c == '\r' ||
    c == Char.ofNat 11 || c == Char.ofNat 12

/-- Python `.` without `re.S`: any character except a newline. -/
def notNlB (c : Char) : Bool := c != '\n'

/-- `matchSeq pats cs` holds when some prefix of `cs` matches the
concatenation `pats`; a star consumes any number of matching characters
(the existential split is regex backtracking). -/
def matchSeq : List Pat → List Char → Bool
  | [], _ => true
  | Pat.one _ :: _, [] => false
  | Pat.one p :: ps, c :: cs => p c && matchSeq ps cs
  | Pat.star p :: ps, cs =>
    (List.range (cs.length + 1)).any (fun k =>
      (cs.take k).all p && matchSeq ps (cs.drop k))

/-- Literal atoms for a string of characters. -/
def litsPat (s : List Char) : List Pat :=
  s.map (fun c => Pat.one (fun d => d == c))

/-- The atoms of `MAIN_RE`'s pattern `if\s+__name__\s*==\s*.__main__.\s*:`
(with `\s+` written as one `\s` then `\s*`). -/
def guardPat : List Pat :=
  litsPat "if".toList ++ [Pat.one wsB, Pat.star wsB] ++
    litsPat "__name__".toList ++ [Pat.star wsB] ++ litsPat "==".toList ++
    [Pat.star wsB, Pat.one notNlB] ++ litsPat "__main__".toList ++
    [Pat.one notNlB, Pat.star wsB] ++ litsPat ":".toList

/-- Scan positions left to right the way `re.search` does with a
`re.M`-anchored `^` pattern: `ls` records whether the current position is a
line start; report the offset of the first position where the pattern
matches. -/
def findFrom (ls : Bool) : List Char → Option Nat
  | [] => if ls && matchSeq guardPat [] then some 0 else none
  | c :: cs =>
    if ls && matchSeq guardPat (c :: cs) then some 0
    else (findFrom (c == '\n') cs).map (· + 1)

/-- `MAIN_RE.search(src)` position: `match.start()` of the first match. -/
def guardPos (src : List Char) : Option Nat := findFrom true src

/-- `ModuleResponder.neutralize_main(src)`: `src[:match.start()]` when the
guard pattern occurs, otherwise `src` unchanged. -/
def neutralizeMain (src : List Char) : List Char :=
  match guardPos src with
  | some p => src.take p
  | none => src

/-- Whether offset `q` of `cs` is at a line start given that the scan enters
`cs` with line-start flag `ls` (`re.M` semantics for `^`). -/
def lsAt (ls : Bool) (cs : List Char) : Nat → Bool
  | 0 => ls
  | k + 1 => (cs.drop k).head? == some '\n'

/-- Whether offset `q` of `src` is at a line start (offset 0, or preceded by
a newline). -/
def lineStartAt (src : List Char) (q : Nat) : Bool := lsAt true src q

/-- The literal guard line `if __name__ == '__main__':` (apostrophe is
character 39). -/
def litGuard : List Char :=
  "if __name__ == ".toList ++ [Char.ofNat 39] ++ "__main__".toList ++
    [Char.ofNat 39, ':']

/-! ## Select.add (mitogen/master.py, class Select)

`Select.add` appends the receiver to `self._receivers`, then raises
`SelectError(owned_msg)` when `recv.notify` is already set; otherwise it
installs `recv.notify = self._put` and, if the receiver is non-empty,
queues it once.  Receivers and the `_put` callback are modelled by numeric
identifiers. -/

/-- Receiver state seen by `Select.add`: its `notify` slot (the identifier
of the owning Select, if any) and whether its queue is empty. -/
structure RecvState where
  notify : Option Nat
  queueEmpty : Bool
deriving Repr, DecidableEq

/-- Select state: identity, `_receivers`, and `_queue` contents. -/
structure SelectState where
  selfId : Nat
  receivers : List Nat
  queued : List Nat
deriving Repr, DecidableEq

/-- Outcome of `Select.add`: the Select and receiver after the call, and the
message of the raised `SelectError`, if one was raised. -/
structure AddResult where
  sel : SelectState
  recv : RecvState
  raised : Option String
deriving Repr, DecidableEq

/-- `Select.owned_msg`. -/
def owned_msg : String :=
  "Cannot add: Receiver is already owned by another Select"

/-- `Select.add(recv)` for a plain receiver: append first, then check
`recv.notify`, then install the notify callback and poll once. -/
def selectAdd (s : SelectState) (recvId : Nat) (recv : RecvState) :
    AddResult :=
  let s1 : SelectState := ⟨s.selfId, s.receivers ++ [recvId], s.queued⟩
  if recv.notify.isSome then ⟨s1, recv, some owned_msg⟩
  else
    ⟨(if recv.queueEmpty then s1 else ⟨s1.selfId, s1.receivers, s1.queued ++ [recvId]⟩),
     ⟨some s.selfId, recv.queueEmpty⟩, none⟩

/-! ## Concrete inputs used by witnesses and counterexamples -/

/-- A small message with empty-by-one payload used for the C1 comparison. -/
def mC1 : Message :=
  { dst_id := 1, src_id := 0, handle := 101, reply_to := 0, data := [7] }

/-- First message of the C3 witness stream. -/
def mW1 : Message :=
  { dst_id := 1, src_id := 0, handle := 101, reply_to := 1000, data := [10, 20] }

/-- Second message of the C3 witness stream (negative id exercises `>h`). -/
def mW2 : Message :=
  { dst_id := -2, src_id := 3, handle := 100, reply_to := 0, data := [] }

/-- A trailing strict prefix of a frame for the C3 witness. -/
def tailW : List Nat := (encode mW1).take 5

/-- The C3 witness byte stream: two frames then a trailing partial frame. -/
def streamW : List Nat := encodeAll [mW1, mW2] ++ tailW

/-- The C3 witness chunking of `streamW` (7 + 11 + 21 bytes). -/
def chunksW : List (List Nat) :=
  [streamW.take 7, (streamW.drop 7).take 11, streamW.drop 18]

/-- Router state for the C2 counterexample: context 0, no parent stream,
context 5 bound to stream 1. -/
def rC2 : RouterState := ⟨[(5, 1)], 0, none⟩

/-- A message from src 5 addressed to the local context. -/
def msgC2 : Message :=
  { dst_id := 0, src_id := 5, handle := 42, reply_to := 0, data := [] }

/-- Handler table for the C4 witness. -/
def hmC4 : List (Nat × HandlerEntry) :=
  [(100, ⟨true, 7⟩), (1000, ⟨false, 8⟩)]

/-- "Does handler fn raise" for the C4 witness: fn 8 raises. -/
def raisesC4 : Nat → Bool := fun f => f == 8

/-- A message to handle 1000 of the local context. -/
def msgC4 : Message :=
  { dst_id := 0, src_id := 5, handle := 1000, reply_to := 0, data := [] }

/-- Router state for the C5 witness: non-root with parent 1 on stream 4,
context 3 bound to stream 9. -/
def rC5 : RouterState := ⟨[(3, 9), (1, 4)], 2, some 1⟩

/-- A message for an unknown destination 7. -/
def msgC5 : Message :=
  { dst_id := 7, src_id := 0, handle := 100, reply_to := 0, data := [] }

/-- Real ssh output carrying both scanned substrings in one chunk. -/
def bufC8 : List Char := "Permission denied (publickey,password).".toList

/-- A configured ssh password for the C8 inputs. -/
def pwC8 : Option (List Char) := some "hunter2".toList

/-- Source text for the C9 witness: a line of code, the literal guard line,
and a body line. -/
def srcC9 : List Char :=
  "x = 1\n".toList ++ litGuard ++ "\n    main()\n".toList

/-! ## Theorems: wire framing -/

theorem beVal_u32be (n : Nat) (h : n < 4294967296) : beVal (u32be n) = n := by
  simp only [beVal, u32be, List.foldl]
  omega

theorem decodeI16_i16be (z : Int) (h1 : -32768 ≤ z) (h2 : z < 32768) :
    decodeI16 (i16be z) = z := by
  have hrep : i16repr z < 65536 := by
    unfold i16repr; omega
  have hval : beVal (i16be z) = i16repr z := by
    simp only [beVal, i16be, List.foldl]
    omega
  unfold decodeI16
  rw [hval]
  unfold i16repr
  split <;> omega

theorem length_encode (m : Message) :
    (encode m).length = HEADER_LEN + m.data.length := by
  simp [encode, i16be, u32be, HEADER_LEN]
  omega

theorem encode_assoc (m : Message) (rest : List Nat) :
    encode m ++ rest =
      i16be m.dst_id ++ (i16be m.src_id ++ (u32be m.handle ++ (u32be m.reply_to ++
        (u32be m.data.length ++ (m.data ++ rest))))) := by
  simp [encode, List.append_assoc]

theorem encode_take2 (m : Message) (rest : List Nat) :
    (encode m ++ rest).take 2 = i16be m.dst_id := by
  rw [encode_assoc]; exact List.take_left' rfl

theorem encode_drop2 (m : Message) (rest : List Nat) :
    (encode m ++ rest).drop 2 =
      i16be m.src_id ++ (u32be m.handle ++ (u32be m.reply_to ++
        (u32be m.data.length ++ (m.data ++ rest)))) := by
  rw [encode_assoc]; exact List.drop_left' rfl

theorem encode_drop4 (m : Message) (rest : List Nat) :
    (encode m ++ rest).drop 4 =
      u32be m.handle ++ (u32be m.reply_to ++
        (u32be m.data.length ++ (m.data ++ rest))) := by
  rw [show (4 : Nat) = 2 + 2 from rfl, ← List.drop_drop, encode_drop2]
  exact List.drop_left' rfl

theorem encode_drop8 (m : Message) (rest : List Nat) :
    (encode m ++ rest).drop 8 =
      u32be m.reply_to ++ (u32be m.data.length ++ (m.data ++ rest)) := by
  rw [show (8 : Nat) = 4 + 4 from rfl, ← List.drop_drop, encode_drop4]
  exact List.drop_left' rfl

theorem encode_drop12 (m : Message) (rest : List Nat) :
    (encode m ++ rest).drop 12 = u32be m.data.length ++ (m.data ++ rest) := by
  rw [show (12 : Nat) = 8 + 4 from rfl, ← List.drop_drop, encode_drop8]
  exact List.drop_left' rfl

theorem encode_drop16 (m : Message) (rest : List Nat) :
    (encode m ++ rest).drop 16 = m.data ++ rest := by
  rw [show (16 : Nat) = 12 + 4 from rfl, ← List.drop_drop, encode_drop12]
  exact List.drop_left' rfl

theorem encode_length_append (m : Message) (rest : List Nat) :
    (encode m ++ rest).length = 16 + m.data.length + rest.length := by
  rw [List.length_append, length_encode]
  unfold HEADER_LEN
  omega

theorem msgLenOf_encode (m : Message) (rest : List Nat)
    (hl : m.data.length < 4294967296) :
    msgLenOf (encode m ++ rest) = m.data.length := by
  unfold msgLenOf
  rw [encode_drop12, List.take_append_of_le_length (by simp [u32be]),
      show (u32be m.data.length).take 4 = u32be m.data.length from
        List.take_of_length_le (by simp [u32be]),
      beVal_u32be _ hl]

/-- Round-trip of the `'>hhLLL'` framing: a frame encoded by `Stream._send`
followed by arbitrary trailing bytes is parsed by `Stream._receive_one` into
exactly the original message, leaving the trailing bytes buffered. -/
theorem receiveOne_encode (m : Message) (rest : List Nat) (h : WFMessage m) :
    receiveOne (encode m ++ rest) = some (m, rest) := by
  obtain ⟨hd1, hd2, hs1, hs2, hh, hr, hl⟩ := h
  have hml := msgLenOf_encode m rest hl
  have hlen := encode_length_append m rest
  unfold receiveOne
  rw [hml, if_neg (by rw [hlen]; unfold HEADER_LEN; omega),
      if_neg (by rw [hlen]; unfold HEADER_LEN; omega)]
  unfold HEADER_LEN
  rw [encode_take2, decodeI16_i16be _ hd1 hd2]
  rw [encode_drop2, List.take_append_of_le_length (by simp [i16be]),
      show (i16be m.src_id).take 2 = i16be m.src_id from
        List.take_of_length_le (by simp [i16be]),
      decodeI16_i16be _ hs1 hs2]
  rw [encode_drop4, List.take_append_of_le_length (by simp [u32be]),
      show (u32be m.handle).take 4 = u32be m.handle from
        List.take_of_length_le (by simp [u32be]),
      beVal_u32be _ hh]
  rw [encode_drop8, List.take_append_of_le_length (by simp [u32be]),
      show (u32be m.reply_to).take 4 = u32be m.reply_to from
        List.take_of_length_le (by simp [u32be]),
      beVal_u32be _ hr]
  rw [encode_drop16, List.take_left]
  rw [show (16 + m.data.length : Nat) = 16 + m.data.length from rfl,
      ← List.drop_drop, encode_drop16, List.drop_left]

theorem receiveOne_length {buf : List Nat} {m : Message} {rest : List Nat}
    (h : receiveOne buf = some (m, rest)) : rest.length < buf.length := by
  unfold receiveOne at h
  split at h
  · exact absurd h (by simp)
  · split at h
    · exact absurd h (by simp)
    · rename_i h1 h2
      injection h with h3
      have h4 : rest = buf.drop (HEADER_LEN + msgLenOf buf) :=
        (congrArg Prod.snd h3).symm
      subst h4
      rw [List.length_drop]
      unfold HEADER_LEN at h1 ⊢
      omega

/-- A consumed frame is insensitive to bytes appended after it. -/
theorem receiveOne_append {b : List Nat} {m : Message} {rest : List Nat}
    (c : List Nat) (h : receiveOne b = some (m, rest)) :
    receiveOne (b ++ c) = some (m, rest ++ c) := by
  unfold receiveOne at h
  split at h
  · exact absurd h (by simp)
  · split at h
    · exact absurd h (by simp)
    · rename_i h1 h2
      unfold HEADER_LEN at h1 h2
      injection h with h3
      have hb16 : 16 ≤ b.length := by omega
      have hml : msgLenOf b ≤ b.length - 16 := by omega
      have hmleq : msgLenOf (b ++ c) = msgLenOf b := by
        unfold msgLenOf
        rw [List.drop_append_of_le_length (by omega),
            List.take_append_of_le_length (by rw [List.length_drop]; omega)]
      unfold receiveOne
      unfold HEADER_LEN
      rw [hmleq, if_neg (by rw [List.length_append]; omega),
          if_neg (by rw [List.length_append]; omega)]
      have hfields := congrArg Prod.fst h3
      have hrest := congrArg Prod.snd h3
      simp only at hfields hrest
      unfold HEADER_LEN at hfields hrest
      rw [List.take_append_of_le_length (by omega),
          List.drop_append_of_le_length (by omega),
          List.take_append_of_le_length (by rw [List.length_drop]; omega),
          List.drop_append_of_le_length (by omega),
          List.take_append_of_le_length (by rw [List.length_drop]; omega),
          List.drop_append_of_le_length (by omega),
          List.take_append_of_le_length (by rw [List.length_drop]; omega),
          List.drop_append_of_le_length (by omega),
          List.take_append_of_le_length (by rw [List.length_drop]; omega),
          List.drop_append_of_le_length (by omega)]
      rw [← hrest, ← hfields]

theorem parseAll_none {buf : List Nat} (h : receiveOne buf = none) :
    parseAll buf = ([], buf) := by
  rw [parseAll]
  split
  · rfl
  · rename_i m rest heq
    rw [h] at heq
    exact absurd heq (by simp)

theorem parseAll_some {buf : List Nat} {m : Message} {rest : List Nat}
    (h : receiveOne buf = some (m, rest)) :
    parseAll buf = (m :: (parseAll rest).1, (parseAll rest).2) := by
  rw [parseAll]
  split
  · rename_i heq
    rw [h] at heq
    exact absurd heq (by simp)
  · rename_i m' rest' heq
    rw [h] at heq
    injection heq with heq2
    have hm : m' = m := (congrArg Prod.fst heq2).symm
    have hr : rest' = rest := (congrArg Prod.snd heq2).symm
    subst hm
    subst hr
    rfl

theorem parseAll_append_aux (n : Nat) :
    ∀ b c : List Nat, b.length ≤ n →
      parseAll (b ++ c) =
        ((parseAll b).1 ++ (parseAll ((parseAll b).2 ++ c)).1,
         (parseAll ((parseAll b).2 ++ c)).2) := by
  induction n with
  | zero =>
    intro b c hb
    have hnil : b = [] := List.eq_nil_of_length_eq_zero (by omega)
    subst hnil
    have h0 : parseAll ([] : List Nat) = ([], []) := parseAll_none (by rfl)
    rw [h0]
    simp
  | succ n ih =>
    intro b c hb
    cases hrec : receiveOne b with
    | none =>
      rw [parseAll_none hrec]
      simp
    | some mr =>
      obtain ⟨m, rest⟩ := mr
      have hlt := receiveOne_length hrec
      rw [parseAll_some hrec, parseAll_some (receiveOne_append c hrec),
          ih rest c (by omega)]
      simp

/-- Incremental parsing: draining the buffer after appending more bytes
yields the same messages as parsing the concatenation at once. -/
theorem parseAll_append (b c : List Nat) :
    parseAll (b ++ c) =
      ((parseAll b).1 ++ (parseAll ((parseAll b).2 ++ c)).1,
       (parseAll ((parseAll b).2 ++ c)).2) :=
  parseAll_append_aux b.length b c (Nat.le_refl _)

theorem receiveOne_parseAll_snd_aux (n : Nat) :
    ∀ buf : List Nat, buf.length ≤ n → receiveOne (parseAll buf).2 = none := by
  induction n with
  | zero =>
    intro buf hb
    have hnil : buf = [] := List.eq_nil_of_length_eq_zero (by omega)
    subst hnil
    rw [parseAll_none (by rfl)]
    rfl
  | succ n ih =>
    intro buf hb
    cases hrec : receiveOne buf with
    | none => rw [parseAll_none hrec]; exact hrec
    | some mr =>
      obtain ⟨m, rest⟩ := mr
      have hlt := receiveOne_length hrec
      rw [parseAll_some hrec]
      exact ih rest (by omega)

/-- After the parse loop runs, the remaining input buffer never holds a
complete frame. -/
theorem receiveOne_parseAll_snd (buf : List Nat) :
    receiveOne (parseAll buf).2 = none :=
  receiveOne_parseAll_snd_aux buf.length buf (Nat.le_refl _)

theorem feed_eq (cs : List (List Nat)) :
    ∀ st : List Nat, receiveOne st = none → (∀ c ∈ cs, c ≠ ([] : List Nat)) →
      feed st cs =
        ((parseAll (st ++ cs.flatten)).2, (parseAll (st ++ cs.flatten)).1) := by
  induction cs with
  | nil =>
    intro st hres _
    simp [feed, parseAll_none hres]
  | cons c cs ih =>
    intro st hres hne
    have hc : ¬c.isEmpty := by
      have := hne c (by simp)
      simpa [List.isEmpty_iff] using this
    have hrec := ih (parseAll (st ++ c)).2 (receiveOne_parseAll_snd (st ++ c))
      (fun d hd => hne d (by simp [hd]))
    rw [feed, if_neg (by simp [hc]), hrec]
    rw [List.flatten_cons, show st ++ (c ++ cs.flatten) = (st ++ c) ++ cs.flatten from
          by rw [List.append_assoc], parseAll_append (st ++ c) cs.flatten]

theorem parseAll_encodeAll (msgs : List Message) (tailB : List Nat)
    (hwf : ∀ m ∈ msgs, WFMessage m) :
    parseAll (encodeAll msgs ++ tailB) =
      (msgs ++ (parseAll tailB).1, (parseAll tailB).2) := by
  induction msgs with
  | nil => simp [encodeAll]
  | cons m ms ih =>
    have hwm : WFMessage m := hwf m (by simp)
    have hws : ∀ x ∈ ms, WFMessage x := fun x hx => hwf x (by simp [hx])
    have : encodeAll (m :: ms) ++ tailB = encode m ++ (encodeAll ms ++ tailB) := by
      simp [encodeAll, List.append_assoc]
    rw [this, parseAll_some (receiveOne_encode m (encodeAll ms ++ tailB) hwm),
        ih hws]
    simp

/-- A strict prefix of an encoded frame never parses: either the header is
short, or the header is complete but announces more payload than is present. -/
theorem receiveOne_take_encode (m : Message) (hw : WFMessage m) (k : Nat)
    (hk : k < (encode m).length) :
    receiveOne ((encode m).take k) = none := by
  obtain ⟨hd1, hd2, hs1, hs2, hh, hr, hl⟩ := hw
  have hlen : (encode m).length = 16 + m.data.length := by
    rw [length_encode]; rfl
  have hlentake : ((encode m).take k).length = k := by
    rw [List.length_take]; omega
  unfold receiveOne
  by_cases hk16 : k < 16
  · rw [if_pos (by rw [hlentake]; unfold HEADER_LEN; exact hk16)]
  · have hml : msgLenOf ((encode m).take k) = m.data.length := by
      unfold msgLenOf
      rw [List.drop_take]
      have h12 : (encode m).drop 12 = u32be m.data.length ++ m.data := by
        have := encode_drop12 m []
        simpa using this
      rw [h12, List.take_append_eq_append_take,
          List.take_of_length_le (l := u32be m.data.length) (by simp [u32be]; omega),
          List.take_append_of_le_length (by simp [u32be]),
          List.take_of_length_le (l := u32be m.data.length) (by simp [u32be]),
          beVal_u32be _ hl]
    rw [if_neg (by rw [hlentake]; unfold HEADER_LEN; omega),
        if_pos (by rw [hlentake, hml]; unfold HEADER_LEN; omega)]

/-! ## Claim theorems -/

/-- C1, counterexample: the claim says the header is five unsigned 32-bit
fields, i.e. the encoder of the spec's words; but `Stream._send` packs
`'>hhLLL'`, so at `mC1` the frames differ and the code's header is 16 bytes
(frame 17), not 20 (frame 21). -/
theorem C1_counterexample :
    encode mC1 ≠ encodeSpecU32 mC1 ∧ (encode mC1).length = 17 ∧
      (encodeSpecU32 mC1).length = 21 := by
  decide

/-- C1 (amended): for every message within the ranges `struct.pack('>hhLLL')`
accepts, the encoded wire frame is the big-endian header signed-16-bit
`dst_id`, signed-16-bit `src_id`, u32 `handle`, u32 `reply_to` (0 meaning
none), u32 `length`, followed by exactly `length` payload bytes, and
decoding an encoded frame recovers the same five header fields and
payload. -/
theorem C1_wire_frame (m : Message) (h : WFMessage m) :
    encode m =
      i16be m.dst_id ++ i16be m.src_id ++ u32be m.handle ++ u32be m.reply_to ++
        u32be m.data.length ++ m.data ∧
    (encode m).length = HEADER_LEN + m.data.length ∧
    receiveOne (encode m) = some (m, []) := by
  refine ⟨rfl, length_encode m, ?_⟩
  have h2 := receiveOne_encode m [] h
  simpa using h2

theorem C1_wire_frame_witness :
    WFMessage mC1 ∧ receiveOne (encode mC1) = some (mC1, []) :=
  ⟨by decide, (C1_wire_frame mC1 (by decide)).2.2⟩

/-- C3: feeding the concatenation of N well-formed frames plus a strict
prefix of a further frame to the stream's receive side, split into arbitrary
nonempty chunks, parses and dispatches exactly those N messages in order,
with the trailing partial frame retained in the input buffer. -/
theorem C3_chunked_framing (msgs : List Message) (tailB : List Nat)
    (chunks : List (List Nat))
    (hwf : ∀ m ∈ msgs, WFMessage m)
    (htail : tailB = [] ∨
      ∃ m' k, WFMessage m' ∧ k < (encode m').length ∧ tailB = (encode m').take k)
    (hchunks : ∀ cj ∈ chunks, cj ≠ ([] : List Nat))
    (hsplit : chunks.flatten = encodeAll msgs ++ tailB) :
    feed [] chunks = (tailB, msgs) := by
  have hres : receiveOne tailB = none := by
    rcases htail with h | ⟨m', k, hw, hk, htb⟩
    · subst h; rfl
    · subst htb; exact receiveOne_take_encode m' hw k hk
  rw [feed_eq chunks [] (by rfl) hchunks]
  rw [List.nil_append, hsplit, parseAll_encodeAll msgs tailB hwf,
      parseAll_none hres]
  simp

theorem C3_chunked_framing_witness :
    feed [] chunksW = (tailW, [mW1, mW2]) :=
  C3_chunked_framing [mW1, mW2] tailW chunksW (by decide)
    (Or.inr ⟨mW1, 5, by decide, by decide, rfl⟩) (by decide) (by decide)

/-- C2, counterexample: a message from src 5 arriving on stream 2 while
src 5 is bound to stream 1 is logged as a bad source, yet `_async_route`
still delivers it locally instead of dropping it. -/
theorem C2_counterexample :
    (asyncRoute rC2 msgC2 (some 2)).badSourceLogged = true ∧
    (asyncRoute rC2 msgC2 (some 2)).action = RouteAction.invoke ∧
    (asyncRoute rC2 msgC2 (some 2)).action ≠ RouteAction.drop := by
  decide

/-- C2 (amended): on a source-verification mismatch `_async_route` logs the
error but does NOT drop the message: processing continues exactly as without
the inbound-stream check (local delivery or forwarding), and the stream is
not disconnected. -/
theorem C2_bad_source_logged_not_dropped (r : RouterState) (msg : Message)
    (s : Nat) (h : some s ≠ expectedStream r msg.src_id) :
    (asyncRoute r msg (some s)).badSourceLogged = true ∧
    (asyncRoute r msg (some s)).action = (asyncRoute r msg none).action ∧
    (asyncRoute r msg (some s)).streamDisconnected = false := by
  by_cases hdst : msg.dst_id = r.context_id
  · simp [asyncRoute, hdst, h]
  · cases hget : dictGet r.stream_by_id msg.dst_id with
    | some s2 => simp [asyncRoute, hdst, hget, h]
    | none =>
      cases hpar : dictGetOpt r.stream_by_id r.parent_id with
      | some s2 => simp [asyncRoute, hdst, hget, hpar, h]
      | none => simp [asyncRoute, hdst, hget, hpar, h]

theorem C2_bad_source_witness :
    (asyncRoute rC2 msgC2 (some 2)).badSourceLogged = true ∧
    (asyncRoute rC2 msgC2 (some 2)).action = (asyncRoute rC2 msgC2 none).action ∧
    (asyncRoute rC2 msgC2 (some 2)).streamDisconnected = false :=
  C2_bad_source_logged_not_dropped rC2 msgC2 2 (by decide)

/-- C4: a message whose `dst_id` is the local context id is handed to
`_invoke`; an unregistered handle is logged and dropped with the table
unchanged; a registered handler is the invoked function, a non-persistent
entry is removed from the table in effect when the function runs, a
persistent one remains, and a handler exception is logged while `_invoke`
still returns normally (it is never re-raised). -/
theorem C4_local_dispatch (r : RouterState) (hm : List (Nat × HandlerEntry))
    (raises : Nat → Bool) (msg : Message) (st : Option Nat)
    (hdst : msg.dst_id = r.context_id) :
    (asyncRoute r msg st).action = RouteAction.invoke ∧
    (hmGet hm msg.handle = none →
      invoke hm raises msg =
        { handle_map := hm, invoked := none,
          invalidHandleLogged := true, exceptionLogged := false }) ∧
    (∀ e, hmGet hm msg.handle = some e →
      (invoke hm raises msg).invoked = some e.fn ∧
      (e.persist = false →
        (invoke hm raises msg).handle_map = hmDel hm msg.handle) ∧
      (e.persist = true → (invoke hm raises msg).handle_map = hm) ∧
      (invoke hm raises msg).exceptionLogged = raises e.fn) := by
  refine ⟨?_, ?_, ?_⟩
  · simp [asyncRoute, hdst]
  · intro hnone
    unfold invoke
    rw [hnone]
  · intro e he
    unfold invoke
    rw [he]
    exact ⟨rfl, fun hp => by simp [hp], fun hp => by simp [hp], rfl⟩

theorem C4_local_dispatch_witness :
    (asyncRoute rC2 msgC4 none).action = RouteAction.invoke ∧
    (invoke hmC4 raisesC4 msgC4).invoked = some 8 ∧
    (invoke hmC4 raisesC4 msgC4).handle_map = hmDel hmC4 1000 ∧
    (invoke hmC4 raisesC4 msgC4).exceptionLogged = true := by
  have h := C4_local_dispatch rC2 hmC4 raisesC4 msgC4 none (by decide)
  have h3 := h.2.2 ⟨false, 8⟩ (by decide)
  exact ⟨h.1, h3.1, h3.2.1 rfl, h3.2.2.2⟩

/-- C5: a message whose `dst_id` differs from the local id is sent on the
stream bound to `dst_id` when one exists, else on the stream bound to
`parent_id`, and when neither exists (as on the root, whose `parent_id` is
`None`) it is logged and dropped without disconnecting anything. -/
theorem C5_forwarding (r : RouterState) (msg : Message) (st : Option Nat)
    (hdst : msg.dst_id ≠ r.context_id) :
    (∀ s, dictGet r.stream_by_id msg.dst_id = some s →
      (asyncRoute r msg st).action = RouteAction.forward s) ∧
    (dictGet r.stream_by_id msg.dst_id = none →
      ∀ p, dictGetOpt r.stream_by_id r.parent_id = some p →
        (asyncRoute r msg st).action = RouteAction.forward p) ∧
    (dictGet r.stream_by_id msg.dst_id = none →
      dictGetOpt r.stream_by_id r.parent_id = none →
      (asyncRoute r msg st).action = RouteAction.drop ∧
      (asyncRoute r msg st).noRouteLogged = true ∧
      (asyncRoute r msg st).streamDisconnected = false) := by
  refine ⟨?_, ?_, ?_⟩
  · intro s hs; simp [asyncRoute, hdst, hs]
  · intro hn p hp; simp [asyncRoute, hdst, hn, hp]
  · intro hn hp; simp [asyncRoute, hdst, hn, hp]

theorem C5_forwarding_witness :
    (asyncRoute rC5 msgC5 none).action = RouteAction.forward 4 :=
  (C5_forwarding rC5 msgC5 none (by decide)).2.1 (by decide) 4 (by decide)

theorem findGlobal_error_is_streamError {m f : String} {e : PyErr}
    (h : findGlobal m f = Except.error e) : ∃ s, e = PyErr.streamError s := by
  unfold findGlobal at h
  split at h
  · split at h
    · exact absurd h (by simp)
    · split at h
      · exact absurd h (by simp)
      · split at h
        · exact absurd h (by simp)
        · injection h with h2
          exact ⟨"cannot unpickle", h2.symm⟩
  · injection h with h2
    exact ⟨"cannot unpickle", h2.symm⟩

theorem unpicklerLoad_bad_global (refs : List (String × String))
    (outcome : LoadOutcome) (h : ∃ mf ∈ refs, isWhitelisted mf = false) :
    ∃ s, unpicklerLoad refs outcome = Except.error (PyErr.streamError s) := by
  induction refs with
  | nil =>
    obtain ⟨mf, hmem, _⟩ := h
    simp at hmem
  | cons a rest ih =>
    obtain ⟨mf, hmem, hwl⟩ := h
    cases hfg : findGlobal a.1 a.2 with
    | error e =>
      obtain ⟨s, hs⟩ := findGlobal_error_is_streamError hfg
      exact ⟨s, by simp [unpicklerLoad, hfg, hs]⟩
    | ok g =>
      have hmf : mf ∈ rest := by
        rcases List.mem_cons.mp hmem with heq | hr
        · exfalso
          subst heq
          unfold isWhitelisted at hwl
          rw [hfg] at hwl
          simp at hwl
        · exact hr
      have hres := ih ⟨mf, hmf, hwl⟩
      simpa [unpicklerLoad, hfg] using hres

/-- C6, counterexample: a payload whose decoding fails with a class other
than `TypeError`/`ValueError` — e.g. the `EOFError` that `cPickle.loads('')`
raises for an empty payload — propagates unchanged out of
`Message.unpickle`, which is not a `StreamError`. -/
theorem C6_counterexample :
    unpickle [] (LoadOutcome.err PyErr.eofError) =
      Except.error PyErr.eofError ∧
    isStreamErr PyErr.eofError = false :=
  ⟨rfl, rfl⟩

/-- C6 (amended): a payload referencing any global `(module, func)` pair
outside the whitelist makes `Message.unpickle` raise `StreamError` rather
than construct the object, and a payload whose decoding fails with
`TypeError` or `ValueError` yields `StreamError('invalid message')`; decode
failures of other exception classes propagate unchanged. -/
theorem C6_unpickle_guard (refs : List (String × String))
    (outcome : LoadOutcome) :
    ((∃ mf ∈ refs, isWhitelisted mf = false) →
      ∃ s, unpickle refs outcome = Except.error (PyErr.streamError s)) ∧
    (∀ e, unpicklerLoad refs outcome = Except.error e →
      (e = PyErr.typeError ∨ e = PyErr.valueError) →
      unpickle refs outcome =
        Except.error (PyErr.streamError "invalid message")) := by
  constructor
  · intro h
    obtain ⟨s, hs⟩ := unpicklerLoad_bad_global refs outcome h
    exact ⟨s, by unfold unpickle; rw [hs]⟩
  · intro e he hor
    unfold unpickle
    rw [he]
    rcases hor with rfl | rfl <;> rfl

theorem C6_unpickle_guard_witness :
    ∃ s, unpickle [("os", "system")] (LoadOutcome.value (PVal.other 0)) =
      Except.error (PyErr.streamError s) :=
  (C6_unpickle_guard [("os", "system")] (LoadOutcome.value (PVal.other 0))).1
    ⟨("os", "system"), by simp, by decide⟩

theorem interruptibleGet_all_none (polls : List (Option QItem))
    (h : ∀ o ∈ polls, o = none) : interruptibleGet polls = none := by
  induction polls with
  | nil => rfl
  | cons o rest ih =>
    have ho := h o (by simp)
    subst ho
    simp only [interruptibleGet]
    exact ih (fun o2 ho2 => h o2 (by simp [ho2]))

/-- C7: with default settings (`raise_channelerror = True`), `Receiver.get`
raises `ChannelError(remote_msg)` when the dequeued message decodes to the
`_DEAD` sentinel, re-raises a decoded `CallError`, otherwise returns the
message together with the decoded value; and when every poll inside the
deadline window comes back empty it raises `TimeoutError`. -/
theorem C7_receiver_get (polls : List (Option QItem)) :
    (∀ tag dec, interruptibleGet polls = some (QItem.msg tag dec) →
      (dec = Except.ok PVal.dead →
        receiverGet true polls = GetOutcome.channelRemote) ∧
      (∀ s, dec = Except.ok (PVal.callError s) →
        receiverGet true polls = GetOutcome.callErr s) ∧
      (∀ v, dec = Except.ok v → v ≠ PVal.dead → (∀ s, v ≠ PVal.callError s) →
        receiverGet true polls = GetOutcome.ok tag v)) ∧
    ((∀ o ∈ polls, o = none) → receiverGet true polls = GetOutcome.timeout) := by
  constructor
  · intro tag dec hget
    refine ⟨?_, ?_, ?_⟩
    · intro hdec
      unfold receiverGet
      rw [hget, hdec]
      simp
    · intro s hdec
      unfold receiverGet
      rw [hget, hdec]
      simp
    · intro v hdec hnd hnc
      unfold receiverGet
      rw [hget, hdec]
      cases v with
      | dead => exact absurd rfl hnd
      | callError s => exact absurd rfl (hnc s)
      | ctx i n => simp
      | other n => simp
  · intro h
    unfold receiverGet
    rw [interruptibleGet_all_none polls h]

theorem C7_receiver_get_witness :
    receiverGet true
        [none, some (QItem.msg 1 (Except.ok (PVal.callError "boom")))] =
      GetOutcome.callErr "boom" :=
  ((C7_receiver_get
      [none, some (QItem.msg 1 (Except.ok (PVal.callError "boom")))]).1
    1 (Except.ok (PVal.callError "boom")) rfl).2.1 "boom" rfl

/-- C8, counterexample: real ssh output `Permission denied
(publickey,password).` contains the substring "password", yet the stored
password is not written and `password_sent` stays false — the
"permission denied" branch runs first and raises. -/
theorem C8_counterexample :
    subB "password".toList (toLowerL bufC8) = true ∧
    sshStepAction pwC8 false bufC8 = SshAction.raiseAuthIncorrect ∧
    sshStepSent pwC8 false bufC8 = false := by
  refine ⟨by decide, by decide, by decide⟩

/-- C8 (amended): for every chunk read before the `EC0` sentinel: if it
contains the case-insensitive substring "permission denied", bootstrap
fails with the password-incorrect error when a password was already sent
and with the auth-incorrect error when none was ever sent; otherwise, if it
contains the case-insensitive substring "password", the stored password
followed by a newline is written to the child and `password_sent` becomes
true (failing with the password-required error when no password was
configured).  The "permission denied" check takes priority over
"password" in a chunk containing both. -/
theorem C8_bootstrap_scan (password : Option (List Char)) (sent : Bool)
    (buf : List Char)
    (hec : sfxB "EC0\n".toList buf = false)
    (hinv : sent = true → password.isSome = true) :
    (subB "permission denied".toList (toLowerL buf) = true →
      (sent = true →
        sshStepAction password sent buf = SshAction.raisePasswordIncorrect) ∧
      (sent = false →
        sshStepAction password sent buf = SshAction.raiseAuthIncorrect)) ∧
    (subB "permission denied".toList (toLowerL buf) = false →
      subB "password".toList (toLowerL buf) = true →
      (password = none →
        sshStepAction password sent buf = SshAction.raisePasswordRequired) ∧
      (∀ p, password = some p →
        sshStepAction password sent buf = SshAction.sendPassword (p ++ ['\n']) ∧
        sshStepSent password sent buf = true)) := by
  constructor
  · intro hpd
    constructor
    · intro hsent
      have hps : password.isSome = true := hinv hsent
      subst hsent
      unfold sshStepAction
      rw [if_neg (by rw [hec]; simp), if_pos hpd, hps]
      simp
    · intro hsent
      subst hsent
      unfold sshStepAction
      rw [if_neg (by rw [hec]; simp), if_pos hpd]
      simp
  · intro hpd hpw
    constructor
    · intro hnone
      subst hnone
      unfold sshStepAction
      rw [if_neg (by rw [hec]; simp), if_neg (by rw [hpd]; simp), if_pos hpw]
    · intro p hp
      subst hp
      constructor
      · unfold sshStepAction
        rw [if_neg (by rw [hec]; simp), if_neg (by rw [hpd]; simp), if_pos hpw]
      · unfold sshStepSent
        unfold sshStepAction
        rw [if_neg (by rw [hec]; simp), if_neg (by rw [hpd]; simp), if_pos hpw]

theorem C8_bootstrap_scan_witness :
    sshStepAction pwC8 false "Enter password:".toList =
      SshAction.sendPassword ("hunter2".toList ++ ['\n']) ∧
    sshStepSent pwC8 false "Enter password:".toList = true := by
  have h := C8_bootstrap_scan pwC8 false "Enter password:".toList (by decide)
    (fun hh => absurd hh (by decide))
  exact (h.2 (by decide) (by decide)).2 "hunter2".toList rfl

/-- C10: `Select.add` on a receiver whose `notify` is already set raises
`SelectError(owned_msg)`, but only after appending the receiver to this
Select's internal list: the Select's state is changed by the failed call and
the rejected receiver remains a member. -/
theorem C10_select_add_owned (s : SelectState) (i : Nat) (recv : RecvState)
    (t : Nat) (h : recv.notify = some t) :
    selectAdd s i recv =
      ⟨⟨s.selfId, s.receivers ++ [i], s.queued⟩, recv, some owned_msg⟩ ∧
    i ∈ (selectAdd s i recv).sel.receivers ∧
    (selectAdd s i recv).sel ≠ s := by
  have hsome : recv.notify.isSome = true := by rw [h]; rfl
  have heq : selectAdd s i recv =
      ⟨⟨s.selfId, s.receivers ++ [i], s.queued⟩, recv, some owned_msg⟩ := by
    simp [selectAdd, hsome]
  refine ⟨heq, ?_, ?_⟩
  · rw [heq]; simp
  · rw [heq]
    intro hcontra
    have hlen := congrArg (fun st => st.receivers.length) hcontra
    simp at hlen

theorem C10_select_add_owned_witness :
    selectAdd ⟨2, [4], []⟩ 9 ⟨some 1, true⟩ =
      ⟨⟨2, [4, 9], []⟩, ⟨some 1, true⟩, some owned_msg⟩ :=
  (C10_select_add_owned ⟨2, [4], []⟩ 9 ⟨some 1, true⟩ 1 rfl).1

theorem matchSeq_nil (cs : List Char) : matchSeq [] cs = true := rfl

theorem matchSeq_one_cons (p : Char → Bool) (ps : List Pat) (c : Char)
    (cs : List Char) :
    matchSeq (Pat.one p :: ps) (c :: cs) = (p c && matchSeq ps cs) := rfl

theorem matchSeq_star_eq (p : Char → Bool) (ps : List Pat) (cs : List Char) :
    matchSeq (Pat.star p :: ps) cs =
      (List.range (cs.length + 1)).any (fun k =>
        (cs.take k).all p && matchSeq ps (cs.drop k)) := rfl

theorem matchSeq_one_intro {p : Char → Bool} {ps : List Pat} {c : Char}
    {cs : List Char} (hc : p c = true) (hrest : matchSeq ps cs = true) :
    matchSeq (Pat.one p :: ps) (c :: cs) = true := by
  rw [matchSeq_one_cons, hc, hrest]
  rfl

theorem matchSeq_star_intro {p : Char → Bool} {ps : List Pat} {cs : List Char}
    (k : Nat) (hk : k ≤ cs.length) (hall : (cs.take k).all p = true)
    (hrest : matchSeq ps (cs.drop k) = true) :
    matchSeq (Pat.star p :: ps) cs = true := by
  rw [matchSeq_star_eq, List.any_eq_true]
  exact ⟨k, List.mem_range.mpr (by omega), by rw [hall, hrest]; rfl⟩

/-- The literal guard line matches the `MAIN_RE` pattern whatever follows. -/
theorem matchSeq_guard_lit (rest : List Char) :
    matchSeq guardPat (litGuard ++ rest) = true := by
  have hg : guardPat =
      [Pat.one (fun d => d == 'i'), Pat.one (fun d => d == 'f'),
       Pat.one wsB, Pat.star wsB,
       Pat.one (fun d => d == '_'), Pat.one (fun d => d == '_'),
       Pat.one (fun d => d == 'n'), Pat.one (fun d => d == 'a'),
       Pat.one (fun d => d == 'm'), Pat.one (fun d => d == 'e'),
       Pat.one (fun d => d == '_'), Pat.one (fun d => d == '_'),
       Pat.star wsB,
       Pat.one (fun d => d == '='), Pat.one (fun d => d == '='),
       Pat.star wsB, Pat.one notNlB,
       Pat.one (fun d => d == '_'), Pat.one (fun d => d == '_'),
       Pat.one (fun d => d == 'm'), Pat.one (fun d => d == 'a'),
       Pat.one (fun d => d == 'i'), Pat.one (fun d => d == 'n'),
       Pat.one (fun d => d == '_'), Pat.one (fun d => d == '_'),
       Pat.one notNlB, Pat.star wsB,
       Pat.one (fun d => d == ':')] := rfl
  have hl : litGuard ++ rest =
      'i' :: 'f' :: ' ' :: '_' :: '_' :: 'n' :: 'a' :: 'm' :: 'e' :: '_' ::
        '_' :: ' ' :: '=' :: '=' :: ' ' :: Char.ofNat 39 :: '_' :: '_' ::
        'm' :: 'a' :: 'i' :: 'n' :: '_' :: '_' :: Char.ofNat 39 :: ':' ::
        rest := rfl
  rw [hg, hl]
  apply matchSeq_one_intro (by decide)
  apply matchSeq_one_intro (by decide)
  apply matchSeq_one_intro (by decide)
  refine matchSeq_star_intro 0 (by simp) (by rfl) ?_
  apply matchSeq_one_intro (by decide)
  apply matchSeq_one_intro (by decide)
  apply matchSeq_one_intro (by decide)
  apply matchSeq_one_intro (by decide)
  apply matchSeq_one_intro (by decide)
  apply matchSeq_one_intro (by decide)
  apply matchSeq_one_intro (by decide)
  apply matchSeq_one_intro (by decide)
  refine matchSeq_star_intro 1 (by simp) (by rfl) ?_
  apply matchSeq_one_intro (by decide)
  apply matchSeq_one_intro (by decide)
  refine matchSeq_star_intro 1 (by simp) (by rfl) ?_
  apply matchSeq_one_intro (by decide)
  apply matchSeq_one_intro (by decide)
  apply matchSeq_one_intro (by decide)
  apply matchSeq_one_intro (by decide)
  apply matchSeq_one_intro (by decide)
  apply matchSeq_one_intro (by decide)
  apply matchSeq_one_intro (by decide)
  apply matchSeq_one_intro (by decide)
  apply matchSeq_one_intro (by decide)
  apply matchSeq_one_intro (by decide)
  refine matchSeq_star_intro 0 (by simp) (by rfl) ?_
  apply matchSeq_one_intro (by decide)
  exact matchSeq_nil rest

/-- `findFrom` reports the first line-anchored match, so a match at offset
`q` guarantees a result at some offset `p ≤ q`. -/
theorem findFrom_min (cs : List Char) :
    ∀ ls q, lsAt ls cs q = true → matchSeq guardPat (cs.drop q) = true →
      ∃ p, p ≤ q ∧ findFrom ls cs = some p := by
  induction cs with
  | nil =>
    intro ls q hls hm
    cases q with
    | zero =>
      exact ⟨0, Nat.le_refl 0, by
        have hls0 : ls = true := hls
        simp [findFrom, hls0]
        exact hm⟩
    | succ k => exact absurd hls (by simp [lsAt])
  | cons c cs2 ih =>
    intro ls q hls hm
    cases q with
    | zero =>
      refine ⟨0, Nat.le_refl 0, ?_⟩
      have hls0 : ls = true := hls
      simp [findFrom, hls0]
      exact hm
    | succ k =>
      by_cases hhit : (ls && matchSeq guardPat (c :: cs2)) = true
      · exact ⟨0, by omega, by simp [findFrom, hhit]⟩
      · have hls2 : lsAt (c == '\n') cs2 k = true := by
          cases k with
          | zero => simpa [lsAt] using hls
          | succ j => simpa [lsAt] using hls
        have hm2 : matchSeq guardPat (cs2.drop k) = true := by
          simpa using hm
        obtain ⟨p, hp, hf⟩ := ih (c == '\n') k hls2 hm2
        refine ⟨p + 1, by omega, ?_⟩
        simp [findFrom, hhit, hf]

theorem pfxB_exists {s : List Char} :
    ∀ {cs : List Char}, pfxB s cs = true → ∃ rest, cs = s ++ rest := by
  induction s with
  | nil => intro cs _; exact ⟨cs, rfl⟩
  | cons a as ih =>
    intro cs h
    cases cs with
    | nil => simp [pfxB] at h
    | cons b bs =>
      have h2 : a = b ∧ pfxB as bs = true := by
        simpa [pfxB, Bool.and_eq_true] using h
      obtain ⟨heq, hpf⟩ := h2
      subst heq
      obtain ⟨rest, hr⟩ := ih hpf
      exact ⟨rest, by rw [hr]; rfl⟩

/-- C9: `neutralize_main` truncates the source at the position of the first
line-anchored `MAIN_RE` guard match when one occurs and returns the source
unchanged when none does; in particular the result contains no bytes at or
after any line-start occurrence of the literal guard line
`if __name__ == '__main__':`, hence none at or after the first one. -/
theorem C9_neutralize_main (src : List Char) :
    ((∀ p, guardPos src = some p → neutralizeMain src = src.take p) ∧
     (guardPos src = none → neutralizeMain src = src)) ∧
    (∀ q, lineStartAt src q = true → pfxB litGuard (src.drop q) = true →
      (neutralizeMain src).length ≤ q) := by
  refine ⟨⟨?_, ?_⟩, ?_⟩
  · intro p hp
    unfold neutralizeMain
    rw [hp]
  · intro hp
    unfold neutralizeMain
    rw [hp]
  · intro q hq hlit
    obtain ⟨rest, hrest⟩ := pfxB_exists hlit
    have hm : matchSeq guardPat (src.drop q) = true := by
      rw [hrest]
      exact matchSeq_guard_lit rest
    obtain ⟨p, hple, hf⟩ := findFrom_min src true q hq hm
    unfold neutralizeMain guardPos
    rw [hf, List.length_take]
    omega

theorem C9_neutralize_main_witness :
    (neutralizeMain srcC9).length ≤ 6 :=
  (C9_neutralize_main srcC9).2 6 (by decide) (by decide)

end Mitogen
